import Mathlib

/-!
Verification development for the GDPR Article 17 erasure orchestrator
(`src/compliance/erasure_handler.py`).

The Python handler is embedded shallowly: every remote interaction
(query-engine submission and polling, object-store listing/copy/delete,
catalog cleanup, request-log update) is recorded as an explicit event in a
trace, and the non-deterministic responses of the remote services are
supplied by an explicit environment value.  Polling loops bounded by a
wall-clock timeout are modelled by the finite list of observations the
service produces before the time budget expires; wall-clock timestamps,
CloudWatch metric emission (which swallows its own errors) and the textual
state-change reasons embedded in error messages are abstracted.  Request-log
(DynamoDB) writes are modelled as always-succeeding effects, mirroring the
source, which installs no error handling around them.  Python exceptions
become `Except` values.
-/

deriving instance DecidableEq for Except

namespace Erasure

/-- A data-lake partition, the `(year, month, day)` triple of
`find_affected_partitions`. -/
structure Partition where
  year : String
  month : String
  day : String
deriving DecidableEq, Repr, Inhabited

/-- Query-execution states reported by `get_query_execution` and inspected by
`wait_for_athena_completion`. -/
inductive AthenaState where
  | QUEUED
  | RUNNING
  | SUCCEEDED
  | FAILED
  | CANCELLED
deriving DecidableEq, Repr, Inhabited

/-- Statement states reported by `describe_statement` and inspected by the
polling loop of `delete_from_redshift`. -/
inductive RedshiftStatus where
  | SUBMITTED
  | PICKED
  | STARTED
  | FINISHED
  | FAILED
  | ABORTED
deriving DecidableEq, Repr, Inhabited

/-- One `describe_statement` response: the status together with the optional
`ResultRows` and `Error` fields the source reads from it. -/
structure RedshiftObs where
  status : RedshiftStatus
  resultRows : Option Nat
  errorText : Option String
deriving DecidableEq, Repr, Inhabited

/-- The two query texts `execute_athena_query` is given, with the values the
source interpolates into the SQL f-strings carried structurally. -/
inductive AthenaQuery where
  | selectDistinctPartitions (db tbl h : String)
  | ctasExcludeHash (db tempTable loc tbl year month day h : String)
deriving DecidableEq, Repr

/-- The SQL submitted through the Redshift Data API by `delete_from_redshift`:
a DELETE on `patient_data.patient_vitals` filtered by the interpolated hash. -/
inductive RedshiftSql where
  | deleteVitals (h : String)
deriving DecidableEq, Repr

/-- Per-partition outcome dict built by `rewrite_partitions` on success. -/
structure PartitionResult where
  label : String
  originalFilesDeleted : Nat
  newFilesCreated : Nat
  status : String
deriving DecidableEq, Repr

/-- One entry of the `audit_log['steps']` list (`completed_at` timestamps
abstracted). -/
inductive AuditStep where
  | findPartitions (found : Nat) (parts : List Partition)
  | rewritePartitions (rewritten : Nat) (details : List PartitionResult)
  | redshiftDelete (rows : Nat)
deriving DecidableEq, Repr

/-- The audit document assembled by `process_erasure_request`
(`started_at`, `completed_at` and `duration_seconds` abstracted). -/
structure AuditLog where
  requestId : String
  steps : List AuditStep
deriving DecidableEq, Repr

/-- Errors raised by the handler (the `ErasureError` instances and the
re-wrapped partition failure). -/
inductive Err where
  | athenaFailed (s : AthenaState)
  | athenaTimeout (secs : Nat)
  | redshiftFailed (msg : String)
  | redshiftTimeout (secs : Nat)
  | partitionRewriteFailed (p : Partition) (inner : Err)
deriving DecidableEq, Repr

/-- A remote call issued by the handler, recorded in order of issuance. -/
inductive Eff where
  | athenaSubmit (q : AthenaQuery)
  | athenaPoll (s : AthenaState)
  | s3DeleteBatch (bucket root : String) (keys : List String)
  | s3Copy (srcBucket srcKey dstBucket dstKey : String)
  | s3DeleteObject (bucket key : String)
  | glueDeleteTable (db name : String)
  | redshiftSubmit (q : RedshiftSql)
  | redshiftPoll (o : RedshiftObs)
  | ddbUpdate (rid status : String) (errorMessage : Option String) (auditLog : Option AuditLog)
deriving DecidableEq, Repr

/-- Environment-variable configuration read at module load. -/
structure Config where
  environmentName : String
  curatedBucket : String
  glueDatabase : String
  glueTable : String
  athenaWorkgroup : String
  redshiftWorkgroup : String
  redshiftDatabase : String
  requestsTable : String
deriving DecidableEq, Repr

/-- Rendering of `AthenaState` used when an error message interpolates the
state name. -/
def AthenaState.text : AthenaState → String
  | .QUEUED => "QUEUED"
  | .RUNNING => "RUNNING"
  | .SUCCEEDED => "SUCCEEDED"
  | .FAILED => "FAILED"
  | .CANCELLED => "CANCELLED"

/-- The `str(e)` rendering persisted as `error_message` (state-change reasons
abstracted to the source default of Unknown). -/
def Err.message : Err → String
  | .athenaFailed s => "Athena query " ++ s.text ++ ": Unknown"
  | .athenaTimeout secs => "Athena query timeout after " ++ toString secs ++ " seconds"
  | .redshiftFailed msg => "Redshift delete failed: " ++ msg
  | .redshiftTimeout secs => "Redshift delete timed out after " ++ toString secs ++ " seconds"
  | .partitionRewriteFailed p inner =>
      "Partition rewrite failed for year=" ++ p.year ++ " month=" ++ p.month
        ++ " day=" ++ p.day ++ ": " ++ inner.message

/-- Staging table name `temp_erasure_{y}_{m}_{d}_{timestamp}`; the millisecond
wall-clock nonce is supplied by the environment. -/
def tempTableName (p : Partition) (nonce : Nat) : String :=
  "temp_erasure_" ++ p.year ++ "_" ++ p.month ++ "_" ++ p.day ++ "_" ++ toString nonce

/-- External location of the staging table. -/
def tempLocation (bucket name : String) : String :=
  "s3://" ++ bucket ++ "/temp-erasure/" ++ name ++ "/"

/-- Key root of the staging file set inside the curated bucket. -/
def stagingRoot (name : String) : String :=
  "temp-erasure/" ++ name ++ "/"

/-- Destination key root of a partition, the `original_prefix` of
`rewrite_partitions`. -/
def destRoot (p : Partition) : String :=
  "curated/year=" ++ p.year ++ "/month=" ++ p.month ++ "/day=" ++ p.day ++ "/"

/-- The `partition` label recorded in each per-partition result. -/
def partitionLabel (p : Partition) : String :=
  "year=" ++ p.year ++ "/month=" ++ p.month ++ "/day=" ++ p.day

/-- Environment for the rewrite of one partition: the query-execution states
observed while polling the staging CTAS query, the paginated listing of the
destination root, the paginated listing of the staging root, and the
wall-clock nonce. -/
structure PartitionEnv where
  stagingPolls : List AthenaState
  destPages : List (List String)
  stagingPages : List (List String)
  nonce : Nat
deriving DecidableEq, Repr, Inhabited

/-- Environment for one request: observations for the locator query, the
paginated locator result rows, a per-partition rewrite environment, and the
observations for the warehouse DELETE statement. -/
structure RequestEnv where
  locatorPolls : List AthenaState
  locatorPages : List (List (List String))
  partitionEnv : Nat → PartitionEnv
  redshiftPolls : List RedshiftObs

/-- Polling loop of `wait_for_athena_completion`: SUCCEEDED returns, FAILED or
CANCELLED raises, any other state sleeps and re-polls; an exhausted
observation list is the elapsed 300-second budget and raises the timeout. -/
def waitForAthenaCompletion : List AthenaState → Except Err Unit × List Eff
  | [] => (.error (.athenaTimeout 300), [])
  | s :: rest =>
    match s with
    | .SUCCEEDED => (.ok (), [.athenaPoll .SUCCEEDED])
    | .FAILED => (.error (.athenaFailed .FAILED), [.athenaPoll .FAILED])
    | .CANCELLED => (.error (.athenaFailed .CANCELLED), [.athenaPoll .CANCELLED])
    | .QUEUED =>
      let r := waitForAthenaCompletion rest
      (r.1, .athenaPoll .QUEUED :: r.2)
    | .RUNNING =>
      let r := waitForAthenaCompletion rest
      (r.1, .athenaPoll .RUNNING :: r.2)

/-- Page loop of `wait_for_athena_results`: accumulates rows across pages,
skipping the first row of a page exactly when no row has been accumulated
yet (`start_idx = 1 if not results else 0`). -/
def collectRowsAux : List (List (List String)) → List (List String) → List (List String)
  | [], acc => acc
  | rows :: pages, acc =>
      collectRowsAux pages (acc ++ rows.drop (if acc.isEmpty then 1 else 0))

/-- Row retrieval of `wait_for_athena_results` applied to the paginated
result set. -/
def collectRows (pages : List (List (List String))) : List (List String) :=
  collectRowsAux pages []

/-- Conversion of result rows to partitions in `find_affected_partitions`:
rows with at least three columns become `(year, month, day)` triples. -/
def rowsToPartitions (rows : List (List String)) : List Partition :=
  rows.filterMap fun row =>
    match row with
    | y :: m :: d :: _ => some ⟨y, m, d⟩
    | _ => none

/-- Submission event of the locator query. -/
def locatorSubmit (cfg : Config) (h : String) : Eff :=
  Eff.athenaSubmit (.selectDistinctPartitions cfg.glueDatabase cfg.glueTable h)

/-- Submission event of the staging CTAS query for one partition. -/
def ctasSubmit (cfg : Config) (h : String) (p : Partition) (nonce : Nat) : Eff :=
  Eff.athenaSubmit
    (.ctasExcludeHash cfg.glueDatabase (tempTableName p nonce)
      (tempLocation cfg.curatedBucket (tempTableName p nonce))
      cfg.glueTable p.year p.month p.day h)

/-- Step A, `find_affected_partitions`: submit the distinct-partition query,
wait for completion, and convert the collected rows. -/
def findAffectedPartitions (cfg : Config) (h : String) (env : RequestEnv) :
    Except Err (List Partition) × List Eff :=
  let submit := locatorSubmit cfg h
  let w := waitForAthenaCompletion env.locatorPolls
  match w.1 with
  | .error e => (.error e, submit :: w.2)
  | .ok _ => (.ok (rowsToPartitions (collectRows env.locatorPages)), submit :: w.2)

/-- Page loop of `delete_s3_prefix`: one batched delete per non-empty listing
page, counting deleted keys. -/
def deleteS3Under (bucket root : String) (pages : List (List String)) : Nat × List Eff :=
  pages.foldl
    (fun acc page =>
      if page.isEmpty then acc
      else (acc.1 + page.length, acc.2 ++ [.s3DeleteBatch bucket root page]))
    (0, [])

/-- Object loop of `move_s3_data`: copy each listed object to the destination
root preserving the relative suffix, then delete the source object. -/
def moveS3Data (srcBucket srcRoot dstBucket dstRoot : String)
    (pages : List (List String)) : Nat × List Eff :=
  pages.foldl
    (fun acc page =>
      page.foldl
        (fun acc2 key =>
          let rel := key.drop srcRoot.length
          (acc2.1 + 1,
           acc2.2 ++ [.s3Copy srcBucket key dstBucket (dstRoot ++ rel),
                      .s3DeleteObject srcBucket key]))
        acc)
    (0, [])

/-- Body of the `rewrite_partitions` loop for a single partition: submit the
staging CTAS query, wait for it, then delete the destination root, move the
staging file set in, and clean up the catalog entry; any raised error is
re-wrapped as the partition rewrite failure. -/
def rewriteOne (cfg : Config) (h : String) (p : Partition) (env : PartitionEnv) :
    Except Err PartitionResult × List Eff :=
  let tname := tempTableName p env.nonce
  let submit := ctasSubmit cfg h p env.nonce
  let w := waitForAthenaCompletion env.stagingPolls
  match w.1 with
  | .error e => (.error (.partitionRewriteFailed p e), submit :: w.2)
  | .ok _ =>
    let del := deleteS3Under cfg.curatedBucket (destRoot p) env.destPages
    let mv := moveS3Data cfg.curatedBucket (stagingRoot tname) cfg.curatedBucket
      (destRoot p) env.stagingPages
    (.ok ⟨partitionLabel p, del.1, mv.1, "success"⟩,
     (submit :: w.2) ++ del.2 ++ mv.2 ++ [.glueDeleteTable cfg.glueDatabase tname])

/-- Step B, `rewrite_partitions`: partitions are processed sequentially and
the first failure aborts the loop (the raised `ErasureError` propagates). -/
def rewritePartitions (cfg : Config) (h : String) :
    List Partition → (Nat → PartitionEnv) → Except Err (List PartitionResult) × List Eff
  | [], _ => (.ok [], [])
  | p :: ps, envF =>
    let r := rewriteOne cfg h p (envF 0)
    match r.1 with
    | .error e => (.error e, r.2)
    | .ok pr =>
      let rest := rewritePartitions cfg h ps (fun i => envF (i + 1))
      match rest.1 with
      | .error e => (.error e, r.2 ++ rest.2)
      | .ok prs => (.ok (pr :: prs), r.2 ++ rest.2)

/-- Polling loop of `delete_from_redshift`: FINISHED returns `ResultRows`
(defaulting to 0), FAILED or ABORTED raises with the reported error
(defaulting to Unknown error), any other status re-polls; an exhausted
observation list is the elapsed 120-second budget and raises the timeout. -/
def pollRedshift : List RedshiftObs → Except Err Nat × List Eff
  | [] => (.error (.redshiftTimeout 120), [])
  | o :: rest =>
    match o.status with
    | .FINISHED => (.ok (o.resultRows.getD 0), [.redshiftPoll o])
    | .FAILED => (.error (.redshiftFailed (o.errorText.getD "Unknown error")), [.redshiftPoll o])
    | .ABORTED => (.error (.redshiftFailed (o.errorText.getD "Unknown error")), [.redshiftPoll o])
    | _ =>
      let r := pollRedshift rest
      (r.1, .redshiftPoll o :: r.2)

/-- Step C, `delete_from_redshift`: submit the DELETE through the Data API and
poll it to a terminal state. -/
def deleteFromRedshift (cfg : Config) (h : String) (env : RequestEnv) :
    Except Err Nat × List Eff :=
  let r := pollRedshift env.redshiftPolls
  (r.1, Eff.redshiftSubmit (.deleteVitals h) :: r.2)

/-- Guarded Step B of `process_erasure_request`: the rewriter is invoked only
when the locator returned a non-empty partition list (`if not
affected_partitions` skips it), and a successful run carries the per-partition
details for the audit entry. -/
def rewriteStage (cfg : Config) (h : String) (parts : List Partition)
    (env : RequestEnv) : Except Err (Option (List PartitionResult)) × List Eff :=
  if parts.isEmpty then (.ok none, [])
  else
    let r := rewritePartitions cfg h parts env.partitionEnv
    match r.1 with
    | .error e => (.error e, r.2)
    | .ok det => (.ok (some det), r.2)

/-- Audit steps accumulated by a fully successful `process_erasure_request`. -/
def successSteps (parts : List Partition) (det : Option (List PartitionResult))
    (rows : Nat) : List AuditStep :=
  AuditStep.findPartitions parts.length parts ::
    ((match det with
      | none => []
      | some d => [AuditStep.rewritePartitions parts.length d])
      ++ [AuditStep.redshiftDelete rows])

/-- Return dict of a successful `process_erasure_request`
(`duration_seconds` abstracted). -/
structure Summary where
  requestId : String
  partitionsAffected : Nat
  rowsDeleted : Nat
deriving DecidableEq, Repr

/-- Orchestration of `process_erasure_request`: set status PROCESSING, run
Step A, Step B (guarded), Step C, then persist COMPLETED together with the
audit document in one update.  On any step error the in-memory audit document
is annotated and the exception re-raised; the annotated document is local to
this function and does not reach the caller. -/
def processErasureRequest (cfg : Config) (rid h : String) (env : RequestEnv) :
    Except Err Summary × List Eff :=
  let start := Eff.ddbUpdate rid "PROCESSING" none none
  let f := findAffectedPartitions cfg h env
  match f.1 with
  | .error e => (.error e, start :: f.2)
  | .ok parts =>
    let rs := rewriteStage cfg h parts env
    match rs.1 with
    | .error e => (.error e, start :: (f.2 ++ rs.2))
    | .ok det =>
      let d := deleteFromRedshift cfg h env
      match d.1 with
      | .error e => (.error e, start :: (f.2 ++ rs.2 ++ d.2))
      | .ok rows =>
        (.ok ⟨rid, parts.length, rows⟩,
         start :: (f.2 ++ rs.2 ++ d.2
           ++ [Eff.ddbUpdate rid "COMPLETED" none
                (some ⟨rid, successSteps parts det rows⟩)]))

/-- Persisted image of an erasure request; `none` fields are attributes absent
from the item. -/
structure RequestRecord where
  status : Option String
  updatedAt : Option String
  completedAt : Option String
  errorMessage : Option String
  auditLog : Option AuditLog
deriving DecidableEq, Repr

/-- The item created by `update_item` when no item exists under the key. -/
def RequestRecord.empty : RequestRecord :=
  ⟨none, none, none, none, none⟩

/-- Python truthiness of the optional `error_message` argument: present and
non-empty. -/
def truthyStr (o : Option String) : Bool :=
  match o with
  | some s => s ≠ ""
  | none => false

/-- Store semantics of one `update_request_status` call: an unconditional
`update_item` that SETs `status` and `updated_at`, adds `completed_at` when
the new status is COMPLETED, and adds `error_message` and `audit_log` when
the truthy optional arguments are given.  `now` is the wall clock read for
the timestamps. -/
def updateRequestStatus (rec : Option RequestRecord) (status now : String)
    (errorMessage : Option String) (auditLog : Option AuditLog) : RequestRecord :=
  let r := rec.getD RequestRecord.empty
  { r with
    status := some status
    updatedAt := some now
    completedAt := if status = "COMPLETED" then some now else r.completedAt
    errorMessage := if truthyStr errorMessage then errorMessage else r.errorMessage
    auditLog := if auditLog.isSome then auditLog else r.auditLog }

/-- The `S`-typed attributes of a stream image that the handler reads. -/
structure StreamImage where
  requestId : Option String
  patientIdHash : Option String
  status : Option String
deriving DecidableEq, Repr, Inhabited

/-- One DynamoDB Stream record as consumed by `lambda_handler`; missing
`dynamodb.NewImage` (or `OldImage`) dictionaries are `none`. -/
structure StreamRecord where
  eventName : Option String
  newImage : Option StreamImage
  oldImage : Option StreamImage
deriving DecidableEq, Repr, Inhabited

/-- Result entry appended to the `results` list of `lambda_handler` for one
processed record. -/
structure ResultEntry where
  requestId : String
  status : String
  errorText : Option String
  partitionsAffected : Option Nat
  rowsDeleted : Option Nat
deriving DecidableEq, Repr

/-- Loop of `lambda_handler`: records that are not INSERT events, whose new
image is not APPROVED, or whose `request_id` or `patient_id_hash` is missing
or empty are skipped; for the rest the pipeline runs, and a raised exception
is caught, persisted as a FAILED status update with the error message, and
turned into a FAILED result entry before the loop continues. -/
def lambdaHandler (cfg : Config) :
    List StreamRecord → (Nat → RequestEnv) → List ResultEntry × List Eff
  | [], _ => ([], [])
  | r :: rs, envF =>
    let rest := lambdaHandler cfg rs (fun i => envF (i + 1))
    if r.eventName ≠ some "INSERT" then rest
    else
      let img := r.newImage.getD default
      if img.status ≠ some "APPROVED" then rest
      else
        match img.requestId, img.patientIdHash with
        | some rid, some h =>
          if rid = "" ∨ h = "" then rest
          else
            let pr := processErasureRequest cfg rid h (envF 0)
            match pr.1 with
            | .ok s =>
              (⟨rid, "COMPLETED", none, some s.partitionsAffected, some s.rowsDeleted⟩ :: rest.1,
               pr.2 ++ rest.2)
            | .error e =>
              (⟨rid, "FAILED", some e.message, none, none⟩ :: rest.1,
               (pr.2 ++ [Eff.ddbUpdate rid "FAILED" (some e.message) none]) ++ rest.2)
        | _, _ => rest

/-- The `(request_id, patient_id_hash)` pair extracted by the handler loop
when a record passes every filter, `none` when the record is skipped. -/
def recordIds (r : StreamRecord) : Option (String × String) :=
  if r.eventName ≠ some "INSERT" then none
  else
    let img := r.newImage.getD default
    if img.status ≠ some "APPROVED" then none
    else
      match img.requestId, img.patientIdHash with
      | some rid, some h => if rid = "" ∨ h = "" then none else some (rid, h)
      | _, _ => none

/-- Acceptance predicate of the handler loop. -/
def codeAccepts (r : StreamRecord) : Bool :=
  (recordIds r).isSome

/-- Modelled from the spec: the event-trigger acceptance stated in section
4.2 — inserts or modifications whose new image has status APPROVED and, for
modifications, whose prior image did not. -/
def claimAccepts (r : StreamRecord) : Bool :=
  (r.eventName = some "INSERT" ∨ r.eventName = some "MODIFY")
    ∧ (r.newImage.getD default).status = some "APPROVED"
    ∧ (r.eventName = some "MODIFY" →
        ¬ (r.oldImage.getD default).status = some "APPROVED")

/-- Modelled from the spec: the hash validator of sections 4.3 and 6,
accepting exactly the 64-character lowercase-hexadecimal strings of the
regex.  The source installs no such validator. -/
def isHexHash (s : String) : Bool :=
  s.length = 64 ∧ s.toList.all fun c =>
    ('0' ≤ c ∧ c ≤ '9') ∨ ('a' ≤ c ∧ c ≤ 'f')

/-- Modelled from the spec: row retrieval described in section 6 — the first
row of the first page is the header and is discarded, every other row of
every page is returned in order. -/
def specRowRetrieval (pages : List (List (List String))) : List (List String) :=
  match pages with
  | [] => []
  | p :: rest => p.drop 1 ++ rest.flatten

/-- An object-store mutation under the given bucket and key root: a batched
delete of listed keys. -/
def Eff.isDestDelete (bucket root : String) : Eff → Bool
  | .s3DeleteBatch b r _ => b = bucket ∧ r = root
  | _ => false

/-- Any object-store mutation. -/
def Eff.isS3Mutation : Eff → Bool
  | .s3DeleteBatch .. => true
  | .s3Copy .. => true
  | .s3DeleteObject .. => true
  | _ => false

/-- A staging CTAS submission. -/
def Eff.isCtas : Eff → Bool
  | .athenaSubmit (.ctasExcludeHash ..) => true
  | _ => false

/-- Success test on a step outcome. -/
def isOkE {α : Type} : Except Err α → Bool
  | .ok _ => true
  | .error _ => false

/-- Concatenated traces of the first `k` partition rewrites. -/
def tracesUpTo (cfg : Config) (h : String) (ps : List Partition)
    (envF : Nat → PartitionEnv) (k : Nat) : List Eff :=
  (List.range k).flatMap fun i => (rewriteOne cfg h (ps.getD i default) (envF i)).2

/-- Statement statuses that terminate the warehouse polling loop. -/
def isTerminalRS : RedshiftStatus → Bool
  | .FINISHED => true
  | .FAILED => true
  | .ABORTED => true
  | _ => false

/-- Statement statuses the warehouse polling loop treats as failures. -/
def isFailRS : RedshiftStatus → Bool
  | .FAILED => true
  | .ABORTED => true
  | _ => false

/-- Remote calls that are neither object-store mutations nor staging CTAS
submissions. -/
def nonRewriteOp (ev : Eff) : Bool :=
  !ev.isS3Mutation && !ev.isCtas

/-- Concrete configuration used by the evaluation fixtures. -/
def cfg0 : Config :=
  ⟨"gdpr-healthcare", "curated-bucket", "glue-db", "curated_health_records",
   "erasure-wg", "redshift-wg", "healthcare_analytics", "gdpr-requests"⟩

/-- A well-formed 64-character lowercase hexadecimal hash. -/
def h64 : String := ⟨List.replicate 64 'a'⟩

/-- Fixture partition. -/
def p0 : Partition := ⟨"2025", "01", "15"⟩

/-- Fixture: an INSERT stream record with an APPROVED image whose hash is the
malformed string of spec scenario 6. -/
def recBad : StreamRecord :=
  ⟨some "INSERT", some ⟨some "r1", some "PATIENT-0001", some "APPROVED"⟩, none⟩

/-- Fixture: a well-formed INSERT stream record with an APPROVED image. -/
def recGood : StreamRecord :=
  ⟨some "INSERT", some ⟨some "r1", some h64, some "APPROVED"⟩, none⟩

/-- Fixture: a MODIFY stream record whose new image is APPROVED and whose
prior image was PENDING, the normal approval transition. -/
def modRec : StreamRecord :=
  ⟨some "MODIFY", some ⟨some "r1", some h64, some "APPROVED"⟩,
   some ⟨some "r1", some h64, some "PENDING"⟩⟩

/-- Fixture: a REMOVE stream record. -/
def recSkip : StreamRecord := ⟨some "REMOVE", none, none⟩

/-- Fixture environment: the locator query succeeds and returns only the
header row, the warehouse DELETE finishes with zero rows. -/
def envNoData : RequestEnv :=
  ⟨[.SUCCEEDED], [[["year", "month", "day"]]], fun _ => default,
   [⟨.FINISHED, some 0, none⟩]⟩

/-- Fixture environment: the locator query succeeds with no data rows and the
warehouse DELETE fails. -/
def envRsFail : RequestEnv :=
  ⟨[.SUCCEEDED], [[["year", "month", "day"]]], fun _ => default,
   [⟨.FAILED, none, none⟩]⟩

/-- Fixture partition environment whose staging query fails. -/
def envFailPart : PartitionEnv := ⟨[.FAILED], [], [], 0⟩

/-- Fixture partition environment whose staging query succeeds after one
running poll, with one destination object and one staging object. -/
def envOkPart : PartitionEnv :=
  ⟨[.RUNNING, .SUCCEEDED],
   [["curated/year=2025/month=01/day=01/f1.parquet"]],
   [["temp-erasure/t/part-0.parquet"]], 7⟩

/-- Fixture environment for the warehouse poller: one in-flight poll, then
FINISHED with five result rows. -/
def envC7 : RequestEnv :=
  ⟨[], [], fun _ => default, [⟨.STARTED, none, none⟩, ⟨.FINISHED, some 5, none⟩]⟩

/-- Fixture partition list. -/
def ps0 : List Partition :=
  [⟨"2025", "01", "01"⟩, ⟨"2025", "01", "02"⟩, ⟨"2025", "01", "03"⟩]

/-- Fixture per-partition environments: the rewrite of the second partition
fails, the others would succeed. -/
def envF5 : Nat → PartitionEnv := fun i => if i = 1 then envFailPart else envOkPart

/-- Fixture per-record environments: the record at position one hits the
failing warehouse, every other record sees the empty data set. -/
def envF10 : Nat → RequestEnv := fun i => if i = 1 then envRsFail else envNoData

/-- Fixture: a terminal COMPLETED request record. -/
def completedRec : RequestRecord :=
  ⟨some "COMPLETED", some "t0", some "t0", none, some ⟨"r1", []⟩⟩

/-- Fixture paginated result set: the first page holds only the header row
and the data rows arrive on the second page. -/
def pages0 : List (List (List String)) :=
  [[["year", "month", "day"]],
   [["2025", "01", "01"], ["2025", "01", "02"]]]

/-- Every event recorded by the completion-polling loop is a poll
observation. -/
theorem waitPolls_shape (polls : List AthenaState) :
    ∀ ev ∈ (waitForAthenaCompletion polls).2, ∃ s, ev = Eff.athenaPoll s := by
  induction polls with
  | nil => intro ev hev; simp [waitForAthenaCompletion] at hev
  | cons s rest ih =>
    intro ev hev
    cases s <;> simp [waitForAthenaCompletion] at hev
    case SUCCEEDED => exact ⟨_, hev⟩
    case FAILED => exact ⟨_, hev⟩
    case CANCELLED => exact ⟨_, hev⟩
    case QUEUED =>
      rcases hev with h | h
      · exact ⟨_, h⟩
      · exact ih ev h
    case RUNNING =>
      rcases hev with h | h
      · exact ⟨_, h⟩
      · exact ih ev h

/-- When the completion-polling loop returns, a SUCCEEDED observation is in
its trace. -/
theorem waitPolls_ok_succeeded (polls : List AthenaState) :
    (waitForAthenaCompletion polls).1 = .ok () →
    Eff.athenaPoll .SUCCEEDED ∈ (waitForAthenaCompletion polls).2 := by
  induction polls with
  | nil => intro hok; simp [waitForAthenaCompletion] at hok
  | cons s rest ih =>
    intro hok
    cases s <;> simp [waitForAthenaCompletion] at hok ⊢
    case QUEUED => exact ih hok
    case RUNNING => exact ih hok

/-- Every event recorded by the warehouse polling loop is a poll
observation. -/
theorem pollRedshift_shape (polls : List RedshiftObs) :
    ∀ ev ∈ (pollRedshift polls).2, ∃ o, ev = Eff.redshiftPoll o := by
  induction polls with
  | nil => intro ev hev; simp [pollRedshift] at hev
  | cons o rest ih =>
    intro ev hev
    cases ho : o.status <;> simp [pollRedshift, ho] at hev
    case FINISHED => exact ⟨_, hev⟩
    case FAILED => exact ⟨_, hev⟩
    case ABORTED => exact ⟨_, hev⟩
    case SUBMITTED =>
      rcases hev with h | h
      · exact ⟨_, h⟩
      · exact ih ev h
    case PICKED =>
      rcases hev with h | h
      · exact ⟨_, h⟩
      · exact ih ev h
    case STARTED =>
      rcases hev with h | h
      · exact ⟨_, h⟩
      · exact ih ev h

/-- Splitting a concatenation at an element the left part cannot contain puts
the whole left part inside the splitting prefix. -/
theorem all_false_mem_left {α : Type} (P : α → Bool) :
    ∀ (l₁ l₂ t1 t2 : List α) (e : α),
      (∀ x ∈ l₁, P x = false) → P e = true →
      l₁ ++ l₂ = t1 ++ e :: t2 → ∀ x ∈ l₁, x ∈ t1 := by
  intro l₁
  induction l₁ with
  | nil => intro l₂ t1 t2 e _ _ _ x hx; simp at hx
  | cons a l ih =>
    intro l₂ t1 t2 e hfalse htrue heq x hx
    cases t1 with
    | nil =>
      simp only [List.nil_append, List.cons_append, List.cons.injEq] at heq
      have hfa : P a = false := hfalse a (by simp)
      rw [heq.1, htrue] at hfa
      exact absurd hfa (by simp)
    | cons b t1' =>
      simp only [List.cons_append, List.cons.injEq] at heq
      rcases List.mem_cons.mp hx with rfl | hxl
      · exact heq.1 ▸ List.mem_cons_self _ _
      · exact List.mem_cons_of_mem _
          (ih l₂ t1' t2 e (fun y hy => hfalse y (List.mem_cons_of_mem _ hy)) htrue heq.2 x hxl)

/-- C3: `update_request_status` is an unconditional `update_item` with no
condition expression; a stored COMPLETED record is overwritten by a
subsequent update, contradicting the claimed terminal-state guard. -/
theorem c3_terminal_status_overwritten :
    updateRequestStatus (some completedRec) "PROCESSING" "t1" none none ≠ completedRec
    ∧ (updateRequestStatus (some completedRec) "PROCESSING" "t1" none none).status
        = some "PROCESSING"
    ∧ completedRec.status = some "COMPLETED" := by
  refine ⟨?_, rfl, rfl⟩
  intro hcontra
  have : (updateRequestStatus (some completedRec) "PROCESSING" "t1" none none).status
      = completedRec.status := by rw [hcontra]
  simp [updateRequestStatus, completedRec] at this

/-- C9 counterexample: when the first page holds only the header row, the
retrieval loop also discards the first data row of the second page, so the
output is not every-row-but-the-header. -/
theorem c9_header_only_first_page_counterexample :
    collectRows pages0 = [["2025", "01", "02"]]
    ∧ specRowRetrieval pages0 = [["2025", "01", "01"], ["2025", "01", "02"]]
    ∧ collectRows pages0 ≠ specRowRetrieval pages0 := by
  refine ⟨rfl, rfl, ?_⟩
  decide

/-- The accumulator loop appends later pages whole once a row has been
collected. -/
theorem collectRowsAux_of_ne_nil (pages : List (List (List String))) :
    ∀ acc, acc ≠ [] → collectRowsAux pages acc = acc ++ pages.flatten := by
  induction pages with
  | nil => intro acc _; simp [collectRowsAux]
  | cons rows rest ih =>
    intro acc hacc
    have hne : acc.isEmpty = false := by
      cases acc
      · exact absurd rfl hacc
      · rfl
    have hcons : acc ++ rows ≠ [] := by
      intro hx
      exact hacc (List.append_eq_nil.mp hx).1
    simp only [collectRowsAux, hne, Bool.false_eq_true, if_false, List.drop_zero]
    rw [ih (acc ++ rows) hcons]
    simp

/-- C9 (amended): when the first page contains rows beyond the header, the
retrieval discards exactly the first row of the first page and returns every
other row of every page in order. -/
theorem c9_first_page_with_data_rows (p : List (List String))
    (rest : List (List (List String))) (hp : 2 ≤ p.length) :
    collectRows (p :: rest) = p.drop 1 ++ rest.flatten := by
  have hne : p.drop 1 ≠ [] := by
    intro hx
    have := List.drop_eq_nil_iff.mp hx
    omega
  simp only [collectRows, collectRowsAux, List.isEmpty_nil, if_pos, List.nil_append]
  exact collectRowsAux_of_ne_nil rest (p.drop 1) hne

/-- When the staging query does not succeed, the rewrite raises the wrapped
partition failure and the trace holds only the submission and the polls. -/
theorem rewriteOne_error (cfg : Config) (h : String) (p : Partition)
    (env : PartitionEnv) (e : Err)
    (hw : (waitForAthenaCompletion env.stagingPolls).1 = .error e) :
    rewriteOne cfg h p env =
      (.error (.partitionRewriteFailed p e),
       ctasSubmit cfg h p env.nonce :: (waitForAthenaCompletion env.stagingPolls).2) := by
  simp only [rewriteOne, hw]

/-- When the staging query succeeds, the rewrite performs the destination
delete, the staging move and the catalog cleanup, in that order. -/
theorem rewriteOne_ok (cfg : Config) (h : String) (p : Partition)
    (env : PartitionEnv)
    (hw : (waitForAthenaCompletion env.stagingPolls).1 = .ok ()) :
    rewriteOne cfg h p env =
      (.ok ⟨partitionLabel p,
            (deleteS3Under cfg.curatedBucket (destRoot p) env.destPages).1,
            (moveS3Data cfg.curatedBucket (stagingRoot (tempTableName p env.nonce))
              cfg.curatedBucket (destRoot p) env.stagingPages).1, "success"⟩,
       (ctasSubmit cfg h p env.nonce :: (waitForAthenaCompletion env.stagingPolls).2)
         ++ (deleteS3Under cfg.curatedBucket (destRoot p) env.destPages).2
         ++ (moveS3Data cfg.curatedBucket (stagingRoot (tempTableName p env.nonce))
              cfg.curatedBucket (destRoot p) env.stagingPages).2
         ++ [.glueDeleteTable cfg.glueDatabase (tempTableName p env.nonce)]) := by
  simp only [rewriteOne, hw]

/-- C2: the destination partition data is deleted only after the staging CTAS
query has been observed SUCCEEDED; when the staging query fails, is cancelled
or times out, no delete under the destination root is issued. -/
theorem c2_destination_delete_only_after_staging_success
    (cfg : Config) (h : String) (p : Partition) (env : PartitionEnv) :
    ((waitForAthenaCompletion env.stagingPolls).1 ≠ .ok () →
       ((rewriteOne cfg h p env).2.any
         (Eff.isDestDelete cfg.curatedBucket (destRoot p))) = false)
    ∧ (∀ t1 ev t2, (rewriteOne cfg h p env).2 = t1 ++ ev :: t2 →
         Eff.isDestDelete cfg.curatedBucket (destRoot p) ev = true →
         Eff.athenaPoll .SUCCEEDED ∈ t1) := by
  have hall : ∀ ev ∈ (waitForAthenaCompletion env.stagingPolls).2,
      Eff.isDestDelete cfg.curatedBucket (destRoot p) ev = false := by
    intro ev hev
    obtain ⟨s, rfl⟩ := waitPolls_shape env.stagingPolls ev hev
    rfl
  constructor
  · intro hne
    cases hw : (waitForAthenaCompletion env.stagingPolls).1 with
    | ok u =>
      cases u
      exact absurd hw hne
    | error e =>
      rw [rewriteOne_error cfg h p env e hw, List.any_eq_false]
      intro x hx
      rcases List.mem_cons.mp hx with rfl | hx'
      · simp [ctasSubmit, Eff.isDestDelete]
      · simp [hall x hx']
  · intro t1 ev t2 heq hdd
    cases hw : (waitForAthenaCompletion env.stagingPolls).1 with
    | error e =>
      rw [rewriteOne_error cfg h p env e hw] at heq
      replace heq : ctasSubmit cfg h p env.nonce
          :: (waitForAthenaCompletion env.stagingPolls).2 = t1 ++ ev :: t2 := heq
      have hmem : ev ∈ ctasSubmit cfg h p env.nonce
          :: (waitForAthenaCompletion env.stagingPolls).2 := by
        rw [heq]
        exact List.mem_append_right _ (List.mem_cons_self _ _)
      rcases List.mem_cons.mp hmem with rfl | hm
      · simp [ctasSubmit, Eff.isDestDelete] at hdd
      · rw [hall ev hm] at hdd
        exact absurd hdd (by simp)
    | ok u =>
      cases u
      rw [rewriteOne_ok cfg h p env hw] at heq
      replace heq : (ctasSubmit cfg h p env.nonce
            :: (waitForAthenaCompletion env.stagingPolls).2)
          ++ (deleteS3Under cfg.curatedBucket (destRoot p) env.destPages).2
          ++ (moveS3Data cfg.curatedBucket (stagingRoot (tempTableName p env.nonce))
               cfg.curatedBucket (destRoot p) env.stagingPages).2
          ++ [.glueDeleteTable cfg.glueDatabase (tempTableName p env.nonce)]
          = t1 ++ ev :: t2 := heq
      rw [List.append_assoc, List.append_assoc] at heq
      have hsub := all_false_mem_left
        (Eff.isDestDelete cfg.curatedBucket (destRoot p))
        (ctasSubmit cfg h p env.nonce :: (waitForAthenaCompletion env.stagingPolls).2)
        _ t1 t2 ev
        (by
          intro x hx
          rcases List.mem_cons.mp hx with rfl | hx'
          · simp [ctasSubmit, Eff.isDestDelete]
          · exact hall x hx')
        hdd heq
      exact hsub _ (List.mem_cons_of_mem _ (waitPolls_ok_succeeded _ hw))

/-- C2 witness: a failing staging query leaves the destination untouched. -/
theorem c2_witness :
    ((rewriteOne cfg0 h64 p0 envFailPart).2.any
      (Eff.isDestDelete cfg0.curatedBucket (destRoot p0))) = false :=
  (c2_destination_delete_only_after_staging_success cfg0 h64 p0 envFailPart).1
    (by simp [envFailPart, waitForAthenaCompletion])

/-- Splitting a flat-mapped initial segment of the naturals at zero. -/
theorem range_succ_flatMap {α : Type} (f : Nat → List α) (k : Nat) :
    (List.range (k + 1)).flatMap f = f 0 ++ (List.range k).flatMap (fun i => f (i + 1)) := by
  induction k with
  | zero => simp [List.range_succ]
  | succ k ih =>
    rw [List.range_succ, List.flatMap_append, ih, List.range_succ, List.flatMap_append]
    simp

/-- Unfolding the concatenated rewrite traces across the head partition. -/
theorem tracesUpTo_cons_succ (cfg : Config) (h : String) (p : Partition)
    (ps : List Partition) (envF : Nat → PartitionEnv) (k : Nat) :
    tracesUpTo cfg h (p :: ps) envF (k + 1) =
      (rewriteOne cfg h p (envF 0)).2 ++ tracesUpTo cfg h ps (fun i => envF (i + 1)) k := by
  simp only [tracesUpTo]
  rw [range_succ_flatMap]
  simp

/-- C5: the rewriter processes partitions sequentially and aborts at the first
failure: when the rewrites of partitions before index `k` succeed and the
rewrite of partition `k` raises, the whole run raises that error and its
trace consists exactly of the traces of partitions `0..k-1` followed by the
trace of partition `k` — partitions after `k` contribute no remote call. -/
theorem c5_rewrite_aborts_at_first_failure (cfg : Config) (h : String) :
    ∀ (k : Nat) (ps : List Partition) (envF : Nat → PartitionEnv) (e : Err),
      (∀ i, i < k → isOkE (rewriteOne cfg h (ps.getD i default) (envF i)).1 = true) →
      k < ps.length →
      (rewriteOne cfg h (ps.getD k default) (envF k)).1 = .error e →
      rewritePartitions cfg h ps envF =
        (.error e,
         tracesUpTo cfg h ps envF k ++ (rewriteOne cfg h (ps.getD k default) (envF k)).2) := by
  intro k
  induction k with
  | zero =>
    intro ps envF e _ hlen herr
    cases ps with
    | nil => simp at hlen
    | cons p ps' =>
      simp only [List.getD_cons_zero] at herr ⊢
      simp only [rewritePartitions, herr]
      simp [tracesUpTo]
  | succ k ih =>
    intro ps envF e hok hlen herr
    cases ps with
    | nil => simp at hlen
    | cons p ps' =>
      have hok0 := hok 0 (Nat.succ_pos k)
      simp only [List.getD_cons_zero] at hok0
      cases hr : (rewriteOne cfg h p (envF 0)).1 with
      | error e0 =>
        rw [hr] at hok0
        simp [isOkE] at hok0
      | ok pr =>
        have hrest := ih ps' (fun i => envF (i + 1)) e
          (fun i hi => by
            have hi1 := hok (i + 1) (Nat.succ_lt_succ hi)
            simpa [List.getD_cons_succ] using hi1)
          (by
            simp only [List.length_cons] at hlen
            omega)
          (by simpa [List.getD_cons_succ] using herr)
        simp only [rewritePartitions, hr, hrest]
        rw [tracesUpTo_cons_succ]
        simp [List.append_assoc, List.getD_cons_succ]

/-- C5 witness: with the second of three partitions failing its staging
query, the run aborts there, keeping the first rewrite and never touching
the third. -/
theorem c5_witness :
    rewritePartitions cfg0 h64 ps0 envF5 =
      (.error (.partitionRewriteFailed (ps0.getD 1 default) (.athenaFailed .FAILED)),
       tracesUpTo cfg0 h64 ps0 envF5 1
         ++ (rewriteOne cfg0 h64 (ps0.getD 1 default) (envF5 1)).2) :=
  c5_rewrite_aborts_at_first_failure cfg0 h64 1 ps0 envF5
    (.partitionRewriteFailed (ps0.getD 1 default) (.athenaFailed .FAILED))
    (fun i hi => by
      have h0 : i = 0 := by omega
      rw [h0]
      decide)
    (by decide)
    (by decide)

/-- A non-terminal observation is consumed by the warehouse polling loop
without changing the outcome. -/
theorem pollRedshift_nonterminal_step (o : RedshiftObs)
    (h0 : isTerminalRS o.status = false) (rest : List RedshiftObs) :
    (pollRedshift (o :: rest)).1 = (pollRedshift rest).1 := by
  cases ho : o.status
  case SUBMITTED => simp [pollRedshift, ho]
  case PICKED => simp [pollRedshift, ho]
  case STARTED => simp [pollRedshift, ho]
  case FINISHED =>
    rw [ho] at h0
    exact absurd h0 (by decide)
  case FAILED =>
    rw [ho] at h0
    exact absurd h0 (by decide)
  case ABORTED =>
    rw [ho] at h0
    exact absurd h0 (by decide)

/-- The warehouse polling loop is decided by the first terminal observation:
FINISHED returns its `ResultRows`, FAILED or ABORTED raises with the reported
error. -/
theorem pollRedshift_first_terminal :
    ∀ (polls : List RedshiftObs) (k : Nat), k < polls.length →
      (∀ j, j < k → isTerminalRS (polls.getD j default).status = false) →
      (((polls.getD k default).status = .FINISHED →
          (pollRedshift polls).1 = .ok ((polls.getD k default).resultRows.getD 0))
       ∧ (isFailRS (polls.getD k default).status = true →
          (pollRedshift polls).1 =
            .error (.redshiftFailed ((polls.getD k default).errorText.getD "Unknown error")))) := by
  intro polls
  induction polls with
  | nil =>
    intro k hk
    simp at hk
  | cons o rest ih =>
    intro k hk hnt
    cases k with
    | zero =>
      simp only [List.getD_cons_zero]
      constructor
      · intro hfin
        simp [pollRedshift, hfin]
      · intro hfail
        have hfa : o.status = .FAILED ∨ o.status = .ABORTED := by
          cases ho : o.status <;> rw [ho] at hfail <;> simp [isFailRS] at hfail <;> simp
        rcases hfa with ho | ho <;> simp [pollRedshift, ho]
    | succ k' =>
      have h0 : isTerminalRS o.status = false := by
        simpa using hnt 0 (Nat.succ_pos k')
      have hstep := pollRedshift_nonterminal_step o h0 rest
      have hrest := ih k' (by
          simp only [List.length_cons] at hk
          omega)
        (fun j hj => by simpa using hnt (j + 1) (Nat.succ_lt_succ hj))
      simp only [List.getD_cons_succ]
      exact ⟨fun hf => by rw [hstep]; exact hrest.1 hf,
             fun hf => by rw [hstep]; exact hrest.2 hf⟩

/-- Exhausting the polling budget with no terminal observation raises the
timeout. -/
theorem pollRedshift_timeout :
    ∀ polls : List RedshiftObs,
      (∀ j, j < polls.length → isTerminalRS (polls.getD j default).status = false) →
      (pollRedshift polls).1 = .error (.redshiftTimeout 120) := by
  intro polls
  induction polls with
  | nil => intro _; rfl
  | cons o rest ih =>
    intro hnt
    have h0 : isTerminalRS o.status = false := by
      simpa using hnt 0 (Nat.succ_pos _)
    rw [pollRedshift_nonterminal_step o h0 rest]
    exact ih (fun j hj => by simpa using hnt (j + 1) (Nat.succ_lt_succ hj))

/-- C7: the warehouse eraser returns the `ResultRows` of the statement when
the first terminal status observed within the polling budget is FINISHED,
raises when it is FAILED or ABORTED, raises the timeout when the budget is
exhausted without a terminal status, and raises in no other case. -/
theorem c7_warehouse_poll_outcomes (cfg : Config) (h : String) (env : RequestEnv) :
    (∀ k, k < env.redshiftPolls.length →
       (∀ j, j < k → isTerminalRS (env.redshiftPolls.getD j default).status = false) →
       (((env.redshiftPolls.getD k default).status = .FINISHED →
           (deleteFromRedshift cfg h env).1 =
             .ok ((env.redshiftPolls.getD k default).resultRows.getD 0))
        ∧ (isFailRS (env.redshiftPolls.getD k default).status = true →
           (deleteFromRedshift cfg h env).1 =
             .error (.redshiftFailed
               ((env.redshiftPolls.getD k default).errorText.getD "Unknown error")))))
    ∧ ((∀ j, j < env.redshiftPolls.length →
          isTerminalRS (env.redshiftPolls.getD j default).status = false) →
        (deleteFromRedshift cfg h env).1 = .error (.redshiftTimeout 120)) := by
  constructor
  · intro k hk hnt
    have hmain := pollRedshift_first_terminal env.redshiftPolls k hk hnt
    exact ⟨fun hf => hmain.1 hf, fun hf => hmain.2 hf⟩
  · intro hall
    exact pollRedshift_timeout env.redshiftPolls hall

/-- C7 witness: a FINISHED observation after one in-flight poll returns the
reported row count. -/
theorem c7_witness : (deleteFromRedshift cfg0 h64 envC7).1 = .ok 5 :=
  ((c7_warehouse_poll_outcomes cfg0 h64 envC7).1 1 (by decide)
    (fun j hj => by
      have h0 : j = 0 := by omega
      rw [h0]
      decide)).1 (by decide)

/-- The locator trace is the submission followed by the polls, whatever the
outcome. -/
theorem findAffectedPartitions_trace (cfg : Config) (h : String) (env : RequestEnv) :
    (findAffectedPartitions cfg h env).2 =
      locatorSubmit cfg h :: (waitForAthenaCompletion env.locatorPolls).2 := by
  cases hw : (waitForAthenaCompletion env.locatorPolls).1 <;>
    simp [findAffectedPartitions, hw]

/-- Completion polls are neither object-store mutations nor CTAS
submissions. -/
theorem waitPolls_nonRewrite (polls : List AthenaState) :
    (waitForAthenaCompletion polls).2.all nonRewriteOp = true := by
  rw [List.all_eq_true]
  intro ev hev
  obtain ⟨s, rfl⟩ := waitPolls_shape polls ev hev
  rfl

/-- Warehouse polls are neither object-store mutations nor CTAS
submissions. -/
theorem pollRedshift_nonRewrite (polls : List RedshiftObs) :
    (pollRedshift polls).2.all nonRewriteOp = true := by
  rw [List.all_eq_true]
  intro ev hev
  obtain ⟨o, rfl⟩ := pollRedshift_shape polls ev hev
  rfl

/-- The locator issues no object-store mutation and no CTAS submission. -/
theorem findAffectedPartitions_nonRewrite (cfg : Config) (h : String) (env : RequestEnv) :
    (findAffectedPartitions cfg h env).2.all nonRewriteOp = true := by
  rw [findAffectedPartitions_trace, List.all_cons, Bool.and_eq_true]
  exact And.intro rfl (waitPolls_nonRewrite env.locatorPolls)

/-- The warehouse eraser issues no object-store mutation and no CTAS
submission. -/
theorem deleteFromRedshift_nonRewrite (cfg : Config) (h : String) (env : RequestEnv) :
    (deleteFromRedshift cfg h env).2.all nonRewriteOp = true := by
  have htr : (deleteFromRedshift cfg h env).2 =
      Eff.redshiftSubmit (.deleteVitals h) :: (pollRedshift env.redshiftPolls).2 := rfl
  rw [htr, List.all_cons, Bool.and_eq_true]
  exact And.intro rfl (pollRedshift_nonRewrite env.redshiftPolls)

/-- C8: when the locator returns an empty partition set, the rewrite step is
skipped entirely — the request issues no staging CTAS query and no
object-store mutation — the warehouse delete still runs, and the request
completes with an audit record counting zero partitions. -/
theorem c8_empty_partitions_skip_rewrite (cfg : Config) (rid h : String)
    (env : RequestEnv) (n : Nat)
    (hfind : (findAffectedPartitions cfg h env).1 = .ok [])
    (hdel : (deleteFromRedshift cfg h env).1 = .ok n) :
    processErasureRequest cfg rid h env =
      (.ok ⟨rid, 0, n⟩,
       .ddbUpdate rid "PROCESSING" none none ::
         ((findAffectedPartitions cfg h env).2
           ++ ((deleteFromRedshift cfg h env).2
             ++ [.ddbUpdate rid "COMPLETED" none
                   (some ⟨rid, [.findPartitions 0 [], .redshiftDelete n]⟩)])))
    ∧ (processErasureRequest cfg rid h env).2.all nonRewriteOp = true := by
  have heq : processErasureRequest cfg rid h env =
      (.ok ⟨rid, 0, n⟩,
       .ddbUpdate rid "PROCESSING" none none ::
         ((findAffectedPartitions cfg h env).2
           ++ ((deleteFromRedshift cfg h env).2
             ++ [.ddbUpdate rid "COMPLETED" none
                   (some ⟨rid, [.findPartitions 0 [], .redshiftDelete n]⟩)]))) := by
    simp only [processErasureRequest, hfind, rewriteStage, List.isEmpty_nil, if_pos, hdel]
    simp [successSteps]
  refine ⟨heq, ?_⟩
  rw [heq]
  simp only [List.all_cons, List.all_append, List.all_nil, Bool.and_eq_true, Bool.and_true]
  exact ⟨rfl, findAffectedPartitions_nonRewrite cfg h env,
         deleteFromRedshift_nonRewrite cfg h env, rfl⟩

/-- C8 witness: a locator run over a header-only result page skips the
rewriter and completes through the warehouse delete. -/
theorem c8_witness :
    processErasureRequest cfg0 "r1" h64 envNoData =
      (.ok ⟨"r1", 0, 0⟩,
       .ddbUpdate "r1" "PROCESSING" none none ::
         ((findAffectedPartitions cfg0 h64 envNoData).2
           ++ ((deleteFromRedshift cfg0 h64 envNoData).2
             ++ [.ddbUpdate "r1" "COMPLETED" none
                   (some ⟨"r1", [.findPartitions 0 [], .redshiftDelete 0]⟩)])))
    ∧ (processErasureRequest cfg0 "r1" h64 envNoData).2.all nonRewriteOp = true :=
  c8_empty_partitions_skip_rewrite cfg0 "r1" h64 envNoData 0 (by decide) (by decide)

/-- C9 witness: a first page with a data row behind the header keeps every
row of the second page. -/
theorem c9_witness :
    collectRows [[["year", "month", "day"], ["2025", "01", "01"]], [["2025", "01", "02"]]]
      = [["year", "month", "day"], ["2025", "01", "01"]].drop 1
          ++ [[["2025", "01", "02"]]].flatten :=
  c9_first_page_with_data_rows
    [["year", "month", "day"], ["2025", "01", "01"]] [[["2025", "01", "02"]]] (by decide)

/-- Unfolding of the handler loop across its head record, expressed through
the extracted `(request_id, patient_id_hash)` pair. -/
theorem lambdaHandler_cons (cfg : Config) (r : StreamRecord) (rs : List StreamRecord)
    (envF : Nat → RequestEnv) :
    lambdaHandler cfg (r :: rs) envF =
      match recordIds r with
      | none => lambdaHandler cfg rs (fun i => envF (i + 1))
      | some (rid, h) =>
        match (processErasureRequest cfg rid h (envF 0)).1 with
        | .ok s =>
          (⟨rid, "COMPLETED", none, some s.partitionsAffected, some s.rowsDeleted⟩
             :: (lambdaHandler cfg rs (fun i => envF (i + 1))).1,
           (processErasureRequest cfg rid h (envF 0)).2
             ++ (lambdaHandler cfg rs (fun i => envF (i + 1))).2)
        | .error e =>
          (⟨rid, "FAILED", some e.message, none, none⟩
             :: (lambdaHandler cfg rs (fun i => envF (i + 1))).1,
           ((processErasureRequest cfg rid h (envF 0)).2
             ++ [Eff.ddbUpdate rid "FAILED" (some e.message) none])
             ++ (lambdaHandler cfg rs (fun i => envF (i + 1))).2) := by
  by_cases h1 : r.eventName = some "INSERT"
  · by_cases h2 : (r.newImage.getD default).status = some "APPROVED"
    · cases hri : (r.newImage.getD default).requestId with
      | none => simp [lambdaHandler, recordIds, h1, h2, hri]
      | some rid =>
        cases hph : (r.newImage.getD default).patientIdHash with
        | none => simp [lambdaHandler, recordIds, h1, h2, hri, hph]
        | some hh =>
          by_cases h3 : rid = "" ∨ hh = ""
          · simp [lambdaHandler, recordIds, h1, h2, hri, hph, h3]
          · cases hpr : (processErasureRequest cfg rid hh (envF 0)).1 with
            | ok s => simp [lambdaHandler, recordIds, h1, h2, hri, hph, h3, hpr]
            | error e => simp [lambdaHandler, recordIds, h1, h2, hri, hph, h3, hpr]
    · simp [lambdaHandler, recordIds, h1, h2]
  · simp [lambdaHandler, recordIds, h1]

/-- C6 counterexample: the MODIFY event produced by the normal
PENDING-to-APPROVED approval transition satisfies the spec acceptance
predicate, yet the handler discards it and invokes nothing. -/
theorem c6_modify_event_not_processed :
    claimAccepts modRec = true
    ∧ lambdaHandler cfg0 [modRec] (fun _ => envNoData) = ([], []) := by
  constructor
  · decide
  · decide

/-- C6 (amended): the handler invokes the per-request pipeline exactly for
INSERT records whose new image has status APPROVED and carries non-empty
`request_id` and `patient_id_hash`; every other record — modifications
included — is discarded without invoking the pipeline and without error. -/
theorem c6_pipeline_invoked_iff_insert_approved (cfg : Config) (r : StreamRecord)
    (env : RequestEnv) :
    lambdaHandler cfg [r] (fun _ => env) = ([], []) ↔ codeAccepts r = false := by
  rw [lambdaHandler_cons]
  cases hri : recordIds r with
  | none => simp [codeAccepts, hri, lambdaHandler]
  | some pr =>
    obtain ⟨rid, h⟩ := pr
    cases hr : (processErasureRequest cfg rid h env).1 with
    | ok s => simp [codeAccepts, hri, hr, lambdaHandler]
    | error e => simp [codeAccepts, hri, hr, lambdaHandler]

/-- C6 witness: a REMOVE record is discarded silently. -/
theorem c6_witness : lambdaHandler cfg0 [recSkip] (fun _ => envNoData) = ([], []) :=
  (c6_pipeline_invoked_iff_insert_approved cfg0 recSkip envNoData).mpr (by decide)

/-- The handler loop distributes over concatenation of the record batch, the
later records seeing their environments at shifted positions. -/
theorem lambdaHandler_append (cfg : Config) :
    ∀ (xs ys : List StreamRecord) (envF : Nat → RequestEnv),
      lambdaHandler cfg (xs ++ ys) envF =
        ((lambdaHandler cfg xs envF).1
           ++ (lambdaHandler cfg ys (fun i => envF (i + xs.length))).1,
         (lambdaHandler cfg xs envF).2
           ++ (lambdaHandler cfg ys (fun i => envF (i + xs.length))).2) := by
  intro xs
  induction xs with
  | nil =>
    intro ys envF
    simp [lambdaHandler]
  | cons x xs ih =>
    intro ys envF
    have hfun : (fun i => envF (i + 1 + xs.length)) = (fun i => envF (i + (xs.length + 1))) :=
      funext fun i => congrArg envF (by omega)
    have hgen : (fun i => envF (i + xs.length + 1)) = (fun i => envF (i + (xs.length + 1))) :=
      funext fun i => congrArg envF (Nat.add_assoc i xs.length 1)
    cases hri : recordIds x with
    | none =>
      simp only [List.cons_append, lambdaHandler_cons, hri, ih ys (fun i => envF (i + 1))]
      simp [List.length_cons, hfun]
      rw [hgen]
      exact ⟨rfl, rfl⟩
    | some pr =>
      obtain ⟨rid, h⟩ := pr
      cases hpr : (processErasureRequest cfg rid h (envF 0)).1 with
      | ok s =>
        simp only [List.cons_append, lambdaHandler_cons, hri, hpr,
          ih ys (fun i => envF (i + 1))]
        simp [List.length_cons, hfun, List.append_assoc]
        rw [hgen]
        exact ⟨rfl, rfl⟩
      | error e =>
        simp only [List.cons_append, lambdaHandler_cons, hri, hpr,
          ih ys (fun i => envF (i + 1))]
        simp [List.length_cons, hfun, List.append_assoc]
        rw [hgen]
        exact ⟨rfl, rfl⟩

/-- C10: a pipeline exception for one record is caught inside the handler
loop: it becomes a FAILED status update and a FAILED result entry, the
records before and after are processed as if the failing record were alone,
and the handler still returns its per-record results. -/
theorem c10_handler_isolates_record_failures (cfg : Config)
    (pre : List StreamRecord) (r : StreamRecord) (post : List StreamRecord)
    (envF : Nat → RequestEnv) (rid h : String) (e : Err)
    (hids : recordIds r = some (rid, h))
    (hpr : (processErasureRequest cfg rid h (envF pre.length)).1 = .error e) :
    (lambdaHandler cfg (pre ++ r :: post) envF).1 =
      (lambdaHandler cfg pre envF).1
        ++ ⟨rid, "FAILED", some e.message, none, none⟩
          :: (lambdaHandler cfg post (fun i => envF (i + pre.length + 1))).1
    ∧ Eff.ddbUpdate rid "FAILED" (some e.message) none
        ∈ (lambdaHandler cfg (pre ++ r :: post) envF).2 := by
  have hfun : (fun i => envF (i + 1 + pre.length)) = (fun i => envF (i + pre.length + 1)) :=
    funext fun i => congrArg envF (by omega)
  rw [← hfun]
  simp only [lambdaHandler_append, lambdaHandler_cons, hids, Nat.zero_add, hpr]
  constructor
  · trivial
  · exact List.mem_append_right _
      (List.mem_append_left _ (List.mem_append_right _ (List.mem_cons_self _ _)))

/-- C10 witness: a skipped record, then a record whose warehouse delete
raises, then a record that completes — the failure is converted to a FAILED
entry and the last record is still processed. -/
theorem c10_witness :
    (lambdaHandler cfg0 ([recSkip] ++ recGood :: [recBad]) envF10).1 =
      (lambdaHandler cfg0 [recSkip] envF10).1
        ++ ⟨"r1", "FAILED", some (Err.message (.redshiftFailed "Unknown error")), none, none⟩
          :: (lambdaHandler cfg0 [recBad] (fun i => envF10 (i + [recSkip].length + 1))).1
    ∧ Eff.ddbUpdate "r1" "FAILED" (some (Err.message (.redshiftFailed "Unknown error"))) none
        ∈ (lambdaHandler cfg0 ([recSkip] ++ recGood :: [recBad]) envF10).2 :=
  c10_handler_isolates_record_failures cfg0 [recSkip] recGood [recBad] envF10
    "r1" h64 (.redshiftFailed "Unknown error") (by decide) (by decide)

/-- C1: the handler performs no hash validation — a request whose
`patient_id_hash` fails the spec regex is not rejected as invalid input:
`find_affected_partitions` is invoked with the malformed hash and submits the
locator query to the query engine, and the request even completes. -/
theorem c1_malformed_hash_reaches_query_engine :
    isHexHash "PATIENT-0001" = false
    ∧ locatorSubmit cfg0 "PATIENT-0001"
        ∈ (lambdaHandler cfg0 [recBad] (fun _ => envNoData)).2
    ∧ (lambdaHandler cfg0 [recBad] (fun _ => envNoData)).1 =
        [⟨"r1", "COMPLETED", none, some 0, some 0⟩] := by
  refine ⟨?_, ?_, ?_⟩
  · decide
  · decide
  · decide

/-- C4: when a step raises, the handler persists FAILED with the error
message but with no `audit_log` attribute — the partial audit document,
although populated (Step A had completed), is not persisted. -/
theorem c4_failed_update_lacks_audit_log :
    (lambdaHandler cfg0 [recGood] (fun _ => envRsFail)).2.getLast? =
      some (.ddbUpdate "r1" "FAILED"
        (some (Err.message (.redshiftFailed "Unknown error"))) none)
    ∧ (findAffectedPartitions cfg0 h64 envRsFail).1 = .ok [] := by
  constructor
  · decide
  · decide

end Erasure
